import Mathlib

/-
  Verification of src/src/utilities/fixed_point.hpp (tyche++ FixedPoint).

  The template class FixedPoint<B, I, F> stores a single integer `value_`
  of the storage kind B.  We embed the storage kind as a signedness flag
  plus a bit width, machine integers as Lean Int reduced by the two's
  complement wrap rule, and the floating-point constructor arguments as
  rationals (all the operations the constructor performs on them —
  scaling by 2^F, comparison with 0, adding 0.5, truncation toward
  zero — are exact at the inputs considered here).
-/

inductive Signedness
| signed
| unsigned
deriving DecidableEq

structure StorageKind where
  sgn : Signedness
  width : Nat
deriving DecidableEq

/-- Embeds std::numeric_limits<B>::digits: the number of non-sign value
bits of the storage kind (width − 1 for a signed kind, width for an
unsigned kind). -/
def digits (B : StorageKind) : Nat :=
  match B.sgn with
  | Signedness.signed => B.width - 1
  | Signedness.unsigned => B.width

/-- Embeds the default of the third template parameter at line 43 of
fixed_point.hpp: F = std::numeric_limits<B>::digits − I. -/
def defaultF (B : StorageKind) (I : Nat) : Nat := digits B - I

/-- The 16-bit signed storage kind used by the concrete scenarios. -/
def int16_t : StorageKind := ⟨Signedness.signed, 16⟩

/-- Reduction of an unbounded integer to the storage kind: two's
complement wrap for a signed kind, reduction modulo 2^width for an
unsigned kind. -/
def wrap (B : StorageKind) (x : Int) : Int :=
  match B.sgn with
  | Signedness.signed => (x + 2 ^ (B.width - 1)) % 2 ^ B.width - 2 ^ (B.width - 1)
  | Signedness.unsigned => x % 2 ^ B.width

/-- Membership of an integer in the representable range of the storage
kind. -/
def inRange (B : StorageKind) (x : Int) : Bool :=
  match B.sgn with
  | Signedness.signed => decide (-(2 ^ (B.width - 1)) ≤ x ∧ x < 2 ^ (B.width - 1))
  | Signedness.unsigned => decide (0 ≤ x ∧ x < 2 ^ B.width)

/-- Embeds the class constant two_power_f = (1ULL << F) at line 54;
one shifted left by F is 2^F. -/
def two_power_f (F : Nat) : Nat := 2 ^ F

/-- Truncation of a rational toward zero, the conversion C++ performs
when a floating-point value is converted to an integer kind: floor for
a nonnegative value, ceiling for a negative one. -/
def trunc (q : ℚ) : Int := if 0 ≤ q then ⌊q⌋ else ⌈q⌉

/-- Embeds the class FixedPoint<B, I, F>: the sole runtime state is the
stored integer value_ (line 90). -/
structure FixedPoint (B : StorageKind) (I F : Nat) where
  value_ : Int
deriving DecidableEq

/-- Embeds the converting constructors at lines 59-60 and 66-67:
value_(value * two_power_f + value >= 0 ? 0.5 : -0.5).  By C++
precedence the conditional operator binds last, so value_ is
initialized from the conditional's result (0.5 or -0.5), truncated to
the storage kind. -/
def FixedPoint.ofRat (B : StorageKind) (I F : Nat) (value : ℚ) : FixedPoint B I F :=
  ⟨wrap B (trunc (if 0 ≤ value * (two_power_f F : ℚ) + value then 1/2 else -(1/2)))⟩

/-- Modelled from the spec: the constructor the spec describes (and the
constructor of the Schregle library this file replicates), which the
source's missing parentheses fail to implement: value_ =
trunc(v × 2^F + (v ≥ 0 ? 0.5 : -0.5)), round-half-away-from-zero of
the scaled value. -/
def FixedPoint.ofRatSpec (B : StorageKind) (I F : Nat) (value : ℚ) : FixedPoint B I F :=
  ⟨wrap B (trunc (value * (two_power_f F : ℚ) + if 0 ≤ value then 1/2 else -(1/2)))⟩

/-- Modelled from the spec: the conversion back to a floating-point
value is absent from src; per the spec it computes value_ / 2^F. -/
def FixedPoint.toRat {B : StorageKind} {I F : Nat} (x : FixedPoint B I F) : ℚ :=
  (x.value_ : ℚ) / (two_power_f F : ℚ)

/-- Embeds operator+= at lines 73-76: value_ += rhs.value_, the result
reduced by the storage kind's wrap rule. -/
def FixedPoint.addAssign {B : StorageKind} {I F : Nat}
    (a rhs : FixedPoint B I F) : FixedPoint B I F :=
  ⟨wrap B (a.value_ + rhs.value_)⟩

/-- Embeds operator-= at lines 83-86: value_ -= rhs.value_, the result
reduced by the storage kind's wrap rule. -/
def FixedPoint.subAssign {B : StorageKind} {I F : Nat}
    (a rhs : FixedPoint B I F) : FixedPoint B I F :=
  ⟨wrap B (a.value_ - rhs.value_)⟩

/-- Stateful semantics of a += b on the pair (lhs, rhs): the left
operand is mutated in place, the right operand is passed by const
reference and kept. -/
def FixedPoint.addAssignState {B : StorageKind} {I F : Nat}
    (p : FixedPoint B I F × FixedPoint B I F) :
    FixedPoint B I F × FixedPoint B I F :=
  (p.1.addAssign p.2, p.2)

/-- Stateful semantics of a -= b on the pair (lhs, rhs). -/
def FixedPoint.subAssignState {B : StorageKind} {I F : Nat}
    (p : FixedPoint B I F × FixedPoint B I F) :
    FixedPoint B I F × FixedPoint B I F :=
  (p.1.subAssign p.2, p.2)

/-- Modelled from the spec: the non-mutating operator+ generated by
boost::ordered_field_operators (boost/operators.hpp is outside this
repository) — copy the left operand, apply the compound operator with
the right operand, return the copy. -/
def FixedPoint.plus {B : StorageKind} {I F : Nat}
    (a b : FixedPoint B I F) : FixedPoint B I F :=
  (FixedPoint.addAssignState (a, b)).1

/-- Modelled from the spec: the non-mutating operator- generated by
boost::ordered_field_operators, by the same copy-then-mutate pattern. -/
def FixedPoint.minus {B : StorageKind} {I F : Nat}
    (a b : FixedPoint B I F) : FixedPoint B I F :=
  (FixedPoint.subAssignState (a, b)).1

/-- Modelled from the spec: the unit-step primitive is absent from src;
per the spec a unit step adds exactly 1 in real-value terms, i.e. adds
2^F to value_. -/
def FixedPoint.increment {B : StorageKind} {I F : Nat}
    (a : FixedPoint B I F) : FixedPoint B I F :=
  ⟨wrap B (a.value_ + (two_power_f F : Int))⟩

/-- Modelled from the spec: the pre-increment derived by
boost::unit_steppable mutates and returns the mutated value. -/
def FixedPoint.preIncrement {B : StorageKind} {I F : Nat}
    (a : FixedPoint B I F) : FixedPoint B I F :=
  a.increment

/-- Modelled from the spec: the post-increment derived by
boost::unit_steppable copies before mutating and returns the
pre-mutation copy; the first component is the returned copy, the second
the mutated variable. -/
def FixedPoint.postIncrement {B : StorageKind} {I F : Nat}
    (a : FixedPoint B I F) : FixedPoint B I F × FixedPoint B I F :=
  (a, a.increment)

/-- Store semantics of a += b over addressed FixedPoint variables:
location lhs receives the wrapped sum, every other location is
untouched. -/
def addAssignAt (B : StorageKind) {n : Nat} (lhs rhs : Fin n)
    (s : Fin n → Int) : Fin n → Int :=
  fun i => if i = lhs then wrap B (s lhs + s rhs) else s i

/-- Store semantics of a -= b over addressed FixedPoint variables. -/
def subAssignAt (B : StorageKind) {n : Nat} (lhs rhs : Fin n)
    (s : Fin n → Int) : Fin n → Int :=
  fun i => if i = lhs then wrap B (s lhs - s rhs) else s i

/-- Store semantics of the derived non-mutating a + b: it returns a
value computed from the operands and the store itself, unchanged. -/
def plusAt (B : StorageKind) {n : Nat} (lhs rhs : Fin n)
    (s : Fin n → Int) : Int × (Fin n → Int) :=
  (wrap B (s lhs + s rhs), s)

/-- Store semantics of the derived non-mutating a - b. -/
def minusAt (B : StorageKind) {n : Nat} (lhs rhs : Fin n)
    (s : Fin n → Int) : Int × (Fin n → Int) :=
  (wrap B (s lhs - s rhs), s)

/- ------------------------------------------------------------------ -/
/- Helper lemmas                                                      -/
/- ------------------------------------------------------------------ -/

theorem FixedPoint.ext_value {B : StorageKind} {I F : Nat}
    {a b : FixedPoint B I F} (h : a.value_ = b.value_) : a = b := by
  cases a
  cases b
  cases h
  rfl

theorem trunc_half : trunc (1/2 : ℚ) = 0 := by
  unfold trunc
  rw [if_pos (by norm_num)]
  norm_num

theorem trunc_neg_half : trunc (-(1/2) : ℚ) = 0 := by
  unfold trunc
  rw [if_neg (by norm_num)]
  norm_num

theorem wrap_emod (B : StorageKind) (x : Int) :
    wrap B x % 2 ^ B.width = x % 2 ^ B.width := by
  rcases B with ⟨s, w⟩
  cases s
  · show ((x + 2 ^ (w - 1)) % 2 ^ w - 2 ^ (w - 1)) % 2 ^ w = x % 2 ^ w
    rw [Int.sub_emod, Int.emod_emod_of_dvd _ dvd_rfl, ← Int.sub_emod,
      add_sub_cancel_right]
  · show x % 2 ^ w % 2 ^ w = x % 2 ^ w
    exact Int.emod_emod_of_dvd _ dvd_rfl

theorem wrap_congr (B : StorageKind) {x y : Int}
    (h : x % 2 ^ B.width = y % 2 ^ B.width) : wrap B x = wrap B y := by
  rcases B with ⟨s, w⟩
  cases s
  · show (x + 2 ^ (w - 1)) % 2 ^ w - 2 ^ (w - 1)
        = (y + 2 ^ (w - 1)) % 2 ^ w - 2 ^ (w - 1)
    rw [Int.add_emod, h, ← Int.add_emod]
  · exact h

theorem wrap_add_left (B : StorageKind) (x y : Int) :
    wrap B (wrap B x + y) = wrap B (x + y) := by
  apply wrap_congr
  rw [Int.add_emod, wrap_emod, ← Int.add_emod]

theorem wrap_sub_left (B : StorageKind) (x y : Int) :
    wrap B (wrap B x - y) = wrap B (x - y) := by
  apply wrap_congr
  rw [Int.sub_emod, wrap_emod, ← Int.sub_emod]

theorem wrap_zero (B : StorageKind) (h : 1 ≤ B.width) : wrap B 0 = 0 := by
  rcases B with ⟨s, w⟩
  have hw : 1 ≤ w := h
  cases s
  · show (0 + 2 ^ (w - 1)) % 2 ^ w - 2 ^ (w - 1) = 0
    have h1 : (0:Int) < 2 ^ (w - 1) := by positivity
    have hm : (2:Int) ^ w = 2 ^ (w - 1) * 2 := by
      rw [← pow_succ]
      congr 1
      omega
    rw [zero_add, Int.emod_eq_of_lt (le_of_lt h1) (by rw [hm]; linarith),
      sub_self]
  · show (0:Int) % 2 ^ w = 0
    exact Int.zero_emod _

theorem wrap_eq_self (B : StorageKind) (x : Int) (h : 1 ≤ B.width)
    (hx : inRange B x = true) : wrap B x = x := by
  rcases B with ⟨s, w⟩
  have hw : 1 ≤ w := h
  cases s
  · have hx2 : -(2 ^ (w - 1)) ≤ x ∧ x < 2 ^ (w - 1) := of_decide_eq_true hx
    show (x + 2 ^ (w - 1)) % 2 ^ w - 2 ^ (w - 1) = x
    have hm : (2:Int) ^ w = 2 ^ (w - 1) * 2 := by
      rw [← pow_succ]
      congr 1
      omega
    rw [Int.emod_eq_of_lt (by linarith [hx2.1]) (by rw [hm]; linarith [hx2.2])]
    exact add_sub_cancel_right x _
  · have hx2 : 0 ≤ x ∧ x < 2 ^ w := of_decide_eq_true hx
    show x % 2 ^ w = x
    exact Int.emod_eq_of_lt hx2.1 hx2.2

theorem wrap_inRange (B : StorageKind) (x : Int) (h : 1 ≤ B.width) :
    inRange B (wrap B x) = true := by
  rcases B with ⟨s, w⟩
  have hw : 1 ≤ w := h
  cases s
  · apply decide_eq_true
    have hm0 : (0:Int) < 2 ^ w := by positivity
    have hm : (2:Int) ^ w = 2 ^ (w - 1) * 2 := by
      rw [← pow_succ]
      congr 1
      omega
    have h1 := Int.emod_nonneg (x + 2 ^ (w - 1)) (ne_of_gt hm0)
    have h2 := Int.emod_lt_of_pos (x + 2 ^ (w - 1)) hm0
    constructor
    · show -(2 ^ (w - 1)) ≤ (x + 2 ^ (w - 1)) % 2 ^ w - 2 ^ (w - 1)
      linarith
    · show (x + 2 ^ (w - 1)) % 2 ^ w - 2 ^ (w - 1) < 2 ^ (w - 1)
      linarith
  · apply decide_eq_true
    have hm0 : (0:Int) < 2 ^ w := by positivity
    exact ⟨Int.emod_nonneg x (ne_of_gt hm0), Int.emod_lt_of_pos x hm0⟩

theorem ofRat_value_zero (B : StorageKind) (I F : Nat) (h : 1 ≤ B.width)
    (v : ℚ) : (FixedPoint.ofRat B I F v).value_ = 0 := by
  show wrap B (trunc (if 0 ≤ v * (two_power_f F : ℚ) + v then 1/2 else -(1/2))) = 0
  split
  · rw [trunc_half]
    exact wrap_zero B h
  · rw [trunc_neg_half]
    exact wrap_zero B h

/- ------------------------------------------------------------------ -/
/- Claim theorems                                                     -/
/- ------------------------------------------------------------------ -/

/-- C1 (code_bug evidence): with 16-bit signed storage, I = 8, F = 8,
the constructor the spec describes stores 960 for 3.75 and -960 for
-3.75; the constructor in the source stores 0 for both, because the
missing parentheses make the whole conditional expression the
initializer of value_. -/
theorem c1_constructor_diverges :
    (FixedPoint.ofRatSpec int16_t 8 8 (15/4)).value_ = 960 ∧
    (FixedPoint.ofRatSpec int16_t 8 8 (-(15/4))).value_ = -960 ∧
    (FixedPoint.ofRat int16_t 8 8 (15/4)).value_ = 0 ∧
    (FixedPoint.ofRat int16_t 8 8 (-(15/4))).value_ = 0 := by
  refine ⟨?_, ?_, ?_, ?_⟩
  · show wrap int16_t (trunc ((15/4 : ℚ) * (two_power_f 8 : ℚ)
        + if 0 ≤ (15/4 : ℚ) then 1/2 else -(1/2))) = 960
    have harg : (15/4 : ℚ) * (two_power_f 8 : ℚ) + 1/2 = 1921/2 := by
      norm_num [two_power_f]
    rw [if_pos (by norm_num), harg]
    have ht : trunc (1921/2 : ℚ) = 960 := by
      unfold trunc
      rw [if_pos (by norm_num)]
      norm_num
    rw [ht]
    decide
  · show wrap int16_t (trunc ((-(15/4) : ℚ) * (two_power_f 8 : ℚ)
        + if 0 ≤ (-(15/4) : ℚ) then 1/2 else -(1/2))) = -960
    have harg : (-(15/4) : ℚ) * (two_power_f 8 : ℚ) + -(1/2) = -(1921/2) := by
      norm_num [two_power_f]
    rw [if_neg (by norm_num), harg]
    have ht : trunc (-(1921/2) : ℚ) = -960 := by
      unfold trunc
      rw [if_neg (by norm_num), Int.ceil_eq_iff]
      constructor <;> norm_num
    rw [ht]
    decide
  · exact ofRat_value_zero int16_t 8 8 (by decide) (15/4)
  · exact ofRat_value_zero int16_t 8 8 (by decide) (-(15/4))

/-- C2 (code_bug evidence): with 16-bit signed storage, I = 8, F = 8,
the round trip at the in-range value v = 3.75 violates the claimed
bound |float(FixedPoint(v)) − v| ≤ 2^-(F+1): the constructor stores 0,
so the round trip returns 0 and the error is 3.75 > 2^-9. -/
theorem c2_round_trip_violated :
    1 / 2 ^ 9
      < |FixedPoint.toRat (FixedPoint.ofRat int16_t 8 8 (15/4)) - 15/4| := by
  have h0 : (FixedPoint.ofRat int16_t 8 8 (15/4)).value_ = 0 :=
    ofRat_value_zero int16_t 8 8 (by decide) (15/4)
  simp only [FixedPoint.toRat, h0]
  rw [abs_sub_comm, abs_of_nonneg (by norm_num [two_power_f])]
  norm_num [two_power_f]

/-- C3 (counterexample): for signed 16-bit storage and I = 8 the default
F is numeric_limits digits − I = 15 − 8 = 7, not bit-width − I = 8. -/
theorem c3_default_f_counterexample :
    defaultF int16_t 8 = 7 ∧ defaultF int16_t 8 ≠ int16_t.width - 8 :=
  ⟨by decide, by decide⟩

/-- C3 (amended): the default F is digits(B) − I, where digits(B) is the
bit width for an unsigned storage kind and the bit width minus one for
a signed storage kind. -/
theorem c3_default_f_amended (w I : Nat) :
    defaultF ⟨Signedness.unsigned, w⟩ I = w - I ∧
    defaultF ⟨Signedness.signed, w⟩ I = w - 1 - I :=
  ⟨rfl, rfl⟩

/-- C4: a += b and a -= b set the stored value to the integer sum and
difference of the stored values, reduced by the storage kind's native
rule: the result is congruent to the exact integer sum/difference
modulo 2^width and lies in the storage kind's representable range. -/
theorem c4_compound_add_sub (B : StorageKind) (I F : Nat)
    (h : 1 ≤ B.width) (a b : FixedPoint B I F) :
    (a.addAssign b).value_ % 2 ^ B.width = (a.value_ + b.value_) % 2 ^ B.width ∧
    (a.subAssign b).value_ % 2 ^ B.width = (a.value_ - b.value_) % 2 ^ B.width ∧
    inRange B (a.addAssign b).value_ = true ∧
    inRange B (a.subAssign b).value_ = true :=
  ⟨wrap_emod B _, wrap_emod B _, wrap_inRange B _ h, wrap_inRange B _ h⟩

theorem c4_witness :
    1 ≤ int16_t.width ∧
    (((⟨960⟩ : FixedPoint int16_t 8 8).addAssign ⟨320⟩).value_ % 2 ^ 16
        = (960 + 320) % 2 ^ 16 ∧
      ((⟨960⟩ : FixedPoint int16_t 8 8).subAssign ⟨320⟩).value_ % 2 ^ 16
        = (960 - 320) % 2 ^ 16 ∧
      inRange int16_t ((⟨960⟩ : FixedPoint int16_t 8 8).addAssign ⟨320⟩).value_ = true ∧
      inRange int16_t ((⟨960⟩ : FixedPoint int16_t 8 8).subAssign ⟨320⟩).value_ = true) :=
  ⟨by decide, c4_compound_add_sub int16_t 8 8 (by decide) ⟨960⟩ ⟨320⟩⟩

/-- C5: the non-mutating + and - are derived from the compound
primitives: a + b is the result of copying a and applying += b to the
copy, a - b likewise with -=. -/
theorem c5_plus_minus_derived (B : StorageKind) (I F : Nat)
    (a b : FixedPoint B I F) :
    FixedPoint.plus a b = a.addAssign b ∧
    FixedPoint.minus a b = a.subAssign b :=
  ⟨rfl, rfl⟩

/-- C6: additive group laws on representable values: (a + b) - b = a
(the intermediate sum reduced by the wrap rule), and a + b = b + a. -/
theorem c6_additive_laws (B : StorageKind) (I F : Nat) (h : 1 ≤ B.width)
    (a b : FixedPoint B I F)
    (ha : inRange B a.value_ = true) (_hb : inRange B b.value_ = true) :
    (FixedPoint.plus a b).minus b = a ∧
    FixedPoint.plus a b = FixedPoint.plus b a := by
  constructor
  · apply FixedPoint.ext_value
    show wrap B (wrap B (a.value_ + b.value_) - b.value_) = a.value_
    rw [wrap_sub_left, add_sub_cancel_right, wrap_eq_self B a.value_ h ha]
  · apply FixedPoint.ext_value
    show wrap B (a.value_ + b.value_) = wrap B (b.value_ + a.value_)
    rw [Int.add_comm]

theorem c6_witness :
    1 ≤ int16_t.width ∧
    inRange int16_t ((⟨960⟩ : FixedPoint int16_t 8 8).value_) = true ∧
    inRange int16_t ((⟨320⟩ : FixedPoint int16_t 8 8).value_) = true ∧
    ((FixedPoint.plus (⟨960⟩ : FixedPoint int16_t 8 8) ⟨320⟩).minus ⟨320⟩ = ⟨960⟩ ∧
      FixedPoint.plus (⟨960⟩ : FixedPoint int16_t 8 8) ⟨320⟩ = FixedPoint.plus ⟨320⟩ ⟨960⟩) :=
  ⟨by decide, by decide, by decide,
    c6_additive_laws int16_t 8 8 (by decide) ⟨960⟩ ⟨320⟩ (by decide) (by decide)⟩

/-- C7: for a signed storage kind, constructing from v and from -v
yields stored integers that are exact negations of each other.  This
holds for the source constructor: it stores 0 for every argument, and 0
is its own negation. -/
theorem c7_rounding_symmetry (B : StorageKind) (I F : Nat)
    (_hs : B.sgn = Signedness.signed) (h : 1 ≤ B.width) (v : ℚ) :
    (FixedPoint.ofRat B I F v).value_ = -((FixedPoint.ofRat B I F (-v)).value_) := by
  rw [ofRat_value_zero B I F h v, ofRat_value_zero B I F h (-v)]
  exact neg_zero.symm

theorem c7_witness :
    int16_t.sgn = Signedness.signed ∧ 1 ≤ int16_t.width ∧
    (FixedPoint.ofRat int16_t 8 8 (15/4)).value_
      = -((FixedPoint.ofRat int16_t 8 8 (-(15/4))).value_) :=
  ⟨rfl, by decide, c7_rounding_symmetry int16_t 8 8 rfl (by decide) (15/4)⟩

/-- C8 (code_bug evidence): with 16-bit signed storage, I = 8, F = 8,
after FixedPoint a(1.0); a++; the value converts back to 1, not to the
claimed 1.00390625 = 257/256, because the constructor stores 0 instead
of 256 and the unit step then yields 256 = 1.0. -/
theorem c8_unit_step_scenario :
    FixedPoint.toRat ((FixedPoint.ofRat int16_t 8 8 1).postIncrement).2 = 1 ∧
    (1 : ℚ) ≠ 257 / 256 := by
  constructor
  · have h0 : (FixedPoint.ofRat int16_t 8 8 1).value_ = 0 :=
      ofRat_value_zero int16_t 8 8 (by decide) 1
    simp only [FixedPoint.postIncrement, FixedPoint.increment, FixedPoint.toRat, h0]
    have hw : wrap int16_t (0 + (two_power_f 8 : Int)) = 256 := by decide
    rw [hw]
    norm_num [two_power_f]
  · norm_num

/-- C9: the compound-assignment operators mutate exactly the left-hand
location of the store — lhs receives the wrapped result and every other
location keeps its value — and the derived non-mutating operators
return a value while leaving the store unchanged. -/
theorem c9_frame (B : StorageKind) (n : Nat) (lhs rhs : Fin n)
    (s : Fin n → Int) :
    addAssignAt B lhs rhs s lhs = wrap B (s lhs + s rhs) ∧
    subAssignAt B lhs rhs s lhs = wrap B (s lhs - s rhs) ∧
    (∀ i, i ≠ lhs → addAssignAt B lhs rhs s i = s i) ∧
    (∀ i, i ≠ lhs → subAssignAt B lhs rhs s i = s i) ∧
    (plusAt B lhs rhs s).2 = s ∧ (minusAt B lhs rhs s).2 = s := by
  refine ⟨by simp [addAssignAt], by simp [subAssignAt], ?_, ?_, rfl, rfl⟩
  · intro i hi
    simp [addAssignAt, hi]
  · intro i hi
    simp [subAssignAt, hi]

theorem c9_witness :
    addAssignAt int16_t (0 : Fin 2) 1 (fun i => if i = 0 then 960 else 320) 1
      = (fun i : Fin 2 => if i = 0 then (960:Int) else 320) 1 :=
  (c9_frame int16_t 2 0 1 (fun i => if i = 0 then 960 else 320)).2.2.1 1 (by decide)

/-- C10: both converting constructors initialize value_ from the result
of the whole conditional expression ((v * two_power_f + v) >= 0 ? 0.5 :
-0.5); the truncation of 0.5 or -0.5 is 0, so value_ is 0 for every
argument. -/
theorem c10_constructor_always_zero (B : StorageKind) (I F : Nat)
    (h : 1 ≤ B.width) (v : ℚ) :
    (FixedPoint.ofRat B I F v).value_ = 0 :=
  ofRat_value_zero B I F h v

theorem c10_witness :
    1 ≤ int16_t.width ∧ (FixedPoint.ofRat int16_t 8 8 (15/4)).value_ = 0 :=
  ⟨by decide, c10_constructor_always_zero int16_t 8 8 (by decide) (15/4)⟩
